import Mathlib

/- A verification development for the Flask media fetch-and-convert service
(src/app.py).  The mutable global dictionaries of the service
(`conversion_progress`, `active_processes`) are modelled as association lists
with dictionary semantics, floating-point times, byte counts and percentages
are modelled as rationals, and the background loops are modelled by the single
pass their loop body performs.  Each claim about the service is stated and
settled against these definitions. -/

namespace VidConv

/- ===================== Configuration constants (app.py 63-71) ===================== -/

def MAX_DURATION : Nat := 14400

def CLEANUP_AGE : Nat := 600

def MAX_CONCURRENT_DOWNLOADS : Nat := 5

def DOWNLOAD_TIMEOUT : Nat := 3600

def STALL_TIMEOUT : Nat := 180

def PROCESSING_STALL_TIMEOUT : Nat := 600

def FFMPEG_TIMEOUT : Nat := 1800

/- ===================== Dictionary operations =====================
Python dict semantics over association lists: assignment replaces the value of
an existing key in place and appends a fresh key at the end; `del` removes the
key; `.get` returns the value of the key when present. -/

def dictGet {β : Type} (m : List (String × β)) (k : String) : Option β :=
  match m with
  | [] => none
  | p :: rest => if p.1 = k then some p.2 else dictGet rest k

def dictSet {β : Type} (m : List (String × β)) (k : String) (v : β) :
    List (String × β) :=
  match m with
  | [] => [(k, v)]
  | p :: rest => if p.1 = k then (k, v) :: rest else p :: dictSet rest k v

def dictDelete {β : Type} (m : List (String × β)) (k : String) :
    List (String × β) :=
  match m with
  | [] => []
  | p :: rest => if p.1 = k then dictDelete rest k else p :: dictDelete rest k

/-- In-place mutation of the value stored under an existing key
(Python `m[k].update(...)` / field assignment); a no-op when the key is absent. -/
def dictUpdate {β : Type} (m : List (String × β)) (k : String) (f : β → β) :
    List (String × β) :=
  match m with
  | [] => []
  | p :: rest => if p.1 = k then (p.1, f p.2) :: rest else p :: dictUpdate rest k f

/-- Python `s[:n]` on a string (slice of the first `n` code points). -/
def truncateStr (n : Nat) (s : String) : String := ⟨s.data.take n⟩

/- ===================== Task state and system state ===================== -/

/-- One entry of `conversion_progress`: the union of the keys the service ever
stores for a task.  Keys a given record does not carry are `none`
(`last_message_update` defaults to 0 via `.get(..., 0)`). -/
structure TaskInfo where
  status : String
  percent : ℚ
  message : String
  lastUpdate : ℚ
  lastMessageUpdate : ℚ := 0
  speed : Option ℚ := none
  eta : Option ℚ := none
  downloaded_bytes : Option ℚ := none
  total_bytes : Option ℚ := none
  title : Option String := none
  filename : Option String := none
  file_size : Option ℚ := none
  has_thumbnail : Option Bool := none
  format : Option String := none
  audio_format : Option String := none
  quality : Option String := none
  extension : Option String := none
deriving DecidableEq

abbrev Registry := List (String × TaskInfo)

/-- A recorded forced termination of an external process.
`tree pid` is `kill_process_tree(pid)` (app.py 193-222, parent and all
descendants); `single pid` is a bare `process.kill()` on the one process. -/
inductive KillEvent
  | tree (pid : Nat)
  | single (pid : Nat)
deriving DecidableEq

/-- The shared mutable state of the service: the task registry
`conversion_progress`, the process registry `active_processes` (task id to the
pid of its running child), the file names present in the two working folders
(`downloads` and `temp`), and a log of the kills performed. -/
structure SystemState where
  progress : Registry
  procs : List (String × Nat)
  downloadFiles : List String
  tempFiles : List String
  kills : List KillEvent
deriving DecidableEq

/-- Deletion of every on-disk artifact of a task from one folder:
`for fname in os.listdir(folder): if fname.startswith(task_id): os.remove(...)`. -/
def deleteTaskFiles (tid : String) (files : List String) : List String :=
  files.filter (fun f => !(String.isPrefixOf tid f))

/- ===================== Timeout policy (app.py 157-190) ===================== -/

/-- Function `calculate_timeout` (app.py 157-175): dynamic download timeout from the
media duration in seconds; a falsy duration (0) yields the fixed default. -/
def calculate_timeout (duration : Nat) : Nat :=
  if duration = 0 then DOWNLOAD_TIMEOUT
  else
    let base_timeout := 600
    let duration_factor := (duration / 600) * 120
    let extra_time := if duration > 3600 then ((duration - 3600) / 600) * 60 else 0
    min (base_timeout + duration_factor + extra_time) 7200

/-- Function `calculate_ffmpeg_timeout` (app.py 178-190): dynamic encode timeout. -/
def calculate_ffmpeg_timeout (duration : Nat) : Nat :=
  if duration = 0 then FFMPEG_TIMEOUT
  else
    let base_timeout := 300
    let duration_factor := (duration / 60) * 30
    min (base_timeout + duration_factor) 7200

/- ===================== Progress hook (app.py 646-710) ===================== -/

/-- The dictionary yt-dlp passes to the progress hook: the keys the hook reads.
`total_bytes` may be missing (`none`); `total_bytes_estimate`, `downloaded_bytes`
`speed` and `eta` are read with default 0 (a missing or null value reads as 0
matching the falsy checks performed on them). -/
structure HookEvent where
  status : String
  total_bytes : Option ℚ
  total_bytes_estimate : ℚ
  downloaded_bytes : ℚ
  speed : ℚ
  eta : ℚ
deriving DecidableEq

/-- One decimal digit rendering of a nonnegative rational
(Python `f"{x:.1f}"`, rendered with round-half-up). -/
def fmt1 (q : ℚ) : String :=
  let t : ℤ := Int.floor (q * 10 + 1 / 2)
  toString (t / 10) ++ "." ++ toString (t % 10)

/-- The message built in the known-total branch of the hook (app.py 663-681). -/
def knownTotalMessage (percent downloaded total speed eta : ℚ) : String :=
  let downloaded_mb := downloaded / (1024 * 1024)
  let total_mb := total / (1024 * 1024)
  let base := "Downloading... " ++ toString (Int.floor percent) ++ "% ("
    ++ fmt1 downloaded_mb ++ "/" ++ fmt1 total_mb ++ " MB)"
  let withSpeed :=
    if 0 < speed then base ++ " @ " ++ fmt1 (speed / (1024 * 1024)) ++ " MB/s"
    else base
  if 0 < eta then
    let etaMin : ℤ := Int.floor (eta / 60)
    let etaSec : ℤ := Int.floor (eta - 60 * Int.floor (eta / 60))
    if 0 < etaMin then
      withSpeed ++ " - ETA: " ++ toString etaMin ++ "m " ++ toString etaSec ++ "s"
    else
      withSpeed ++ " - ETA: " ++ toString etaSec ++ "s"
  else withSpeed

/-- Function `progress_hook(d, task_id)` (app.py 646-710): returns early when the task is
absent, always refreshes `last_update`, and on a `downloading` event recomputes
the percent (byte-proportional when a positive total is known, a fixed +0.3
trickle capped at 85 otherwise), writing the update only when the percent moved
by at least 0.5 or the last message is older than 5 seconds; a `finished` event
moves the task to `processing` at percent 87. -/
def progress_hook (d : HookEvent) (tid : String) (now : ℚ) (m : Registry) :
    Registry :=
  match dictGet m tid with
  | none => m
  | some info0 =>
    let info := { info0 with lastUpdate := now }
    let m1 := dictSet m tid info
    if d.status = "downloading" then
      let total : ℚ :=
        match d.total_bytes with
        | some t => if t ≠ 0 then t else d.total_bytes_estimate
        | none => d.total_bytes_estimate
      let downloaded := d.downloaded_bytes
      if 0 < total then
        let percent := min (downloaded / total * 85) 85
        let message := knownTotalMessage percent downloaded total d.speed d.eta
        if 1 / 2 ≤ |percent - info.percent| ∨ 5 < now - info.lastMessageUpdate then
          dictSet m1 tid { info with
            status := "downloading", percent := percent
            speed := some d.speed, eta := some d.eta
            downloaded_bytes := some downloaded, total_bytes := some total
            message := message, lastMessageUpdate := now }
        else m1
      else
        let percent := min (info.percent + 3 / 10) 85
        let message := "Downloading... " ++ toString (Int.floor percent) ++ "%"
        if 1 / 2 ≤ |percent - info.percent| ∨ 5 < now - info.lastMessageUpdate then
          dictSet m1 tid { info with
            status := "downloading", percent := percent
            speed := some d.speed, eta := some d.eta
            downloaded_bytes := some downloaded, total_bytes := some total
            message := message, lastMessageUpdate := now }
        else m1
    else if d.status = "finished" then
      dictSet m1 tid { info with
        status := "processing", percent := 87
        message := "Download complete. Processing file...", lastUpdate := now }
    else m1

/-- The percent computed by the hook when the total byte count is known
(app.py 663). -/
def dlPercent (total downloaded : ℚ) : ℚ := min (downloaded / total * 85) 85

/- ============ Pipeline registry writes inside run_conversion ============ -/

/-- The registry entry created at submission (app.py 887-893). -/
def initial_task_record (now : ℚ) : TaskInfo :=
  { status := "initializing", percent := 1, message := "Preparing download..."
    lastUpdate := now }

/-- The `connecting` update (app.py 911-917). -/
def connecting_update (now : ℚ) (tid : String) (m : Registry) : Registry :=
  dictUpdate m tid fun i =>
    { i with
      status := "connecting"
      percent := 2
      message := "Connecting to server..."
      lastUpdate := now }

/-- The `starting` update (app.py 960-966). -/
def starting_update (now : ℚ) (tid : String) (m : Registry) : Registry :=
  dictUpdate m tid fun i =>
    { i with
      status := "starting"
      percent := 5
      message := "Starting download..."
      lastUpdate := now }

/-- The update written right after the download wait returns (app.py 1002-1008). -/
def locating_update (now : ℚ) (tid : String) (m : Registry) : Registry :=
  dictUpdate m tid fun i =>
    { i with
      status := "processing"
      percent := 86
      message := "Download complete. Locating file..."
      lastUpdate := now }

/- ===================== Stall detection (app.py 296-363) ===================== -/

/-- Statuses the stall checker skips (app.py 308). -/
def terminalStatus (s : String) : Bool :=
  s == "completed" || s == "error" || s == "cancelled" || s == "unknown"

/-- The stage-dependent stall threshold (app.py 317-323). -/
def stallThreshold (status : String) : Nat :=
  if status = "downloading" then STALL_TIMEOUT
  else if status = "processing" ∨ status = "embedding" then PROCESSING_STALL_TIMEOUT
  else STALL_TIMEOUT

/-- The record the stall checker overwrites a stalled task with (app.py 343-348). -/
def stall_record (now stallTime oldPercent : ℚ) : TaskInfo :=
  { status := "error", percent := oldPercent
    message := "Process stalled after " ++ toString (Int.floor stallTime)
      ++ "s. Please try again."
    lastUpdate := now }

/-- The stall checker's treatment of one task of the registry snapshot
(app.py 304-360 loop body): terminal tasks and tasks with no recorded
`last_update` are skipped; a task idle past its threshold has its registered
process tree-killed and deregistered, its registry entry replaced by the
stalled error record, and its task-id-prefixed files deleted from both
working folders. -/
def stallHandleTask (now : ℚ) (st : SystemState) (tid : String)
    (info : TaskInfo) : SystemState :=
  if terminalStatus info.status then st
  else if info.lastUpdate = 0 then st
  else
    let stallTime := now - info.lastUpdate
    if stallTime > (stallThreshold info.status : ℚ) then
      let st1 :=
        match dictGet st.procs tid with
        | some pid =>
          { st with
            procs := dictDelete st.procs tid
            kills := st.kills ++ [KillEvent.tree pid] }
        | none => st
      { st1 with
        progress := dictSet st1.progress tid (stall_record now stallTime info.percent)
        downloadFiles := deleteTaskFiles tid st1.downloadFiles
        tempFiles := deleteTaskFiles tid st1.tempFiles }
    else st

/-- One scan pass of `check_stalled_downloads` (app.py 296-363): the loop body
applied to a snapshot of the registry items. -/
def check_stalled_downloads (now : ℚ) (st : SystemState) : SystemState :=
  st.progress.foldl (fun acc p => stallHandleTask now acc p.1 p.2) st

/- ============ Pipeline outermost exception handler (app.py 1333-1369) ============ -/

/-- The terminal record written by the pipeline's exception handler:
`err = str(e)[:300]`, message `f'Error: {err}'` (app.py 1334, 1351-1357). -/
def pipeline_error_record (e : String) (now : ℚ) : TaskInfo :=
  { status := "error", percent := 0
    message := "Error: " ++ truncateStr 300 e, lastUpdate := now }

/-- The `except` block of `run_conversion` (app.py 1333-1369): kill (tree) and
deregister any process still attributed to the task, overwrite the task's
registry entry with the truncated error record, and delete every
task-id-prefixed file from both working folders. -/
def run_conversion_error_handler (e : String) (now : ℚ) (tid : String)
    (st : SystemState) : SystemState :=
  let st1 :=
    match dictGet st.procs tid with
    | some pid =>
      { st with
        procs := dictDelete st.procs tid
        kills := st.kills ++ [KillEvent.tree pid] }
    | none => st
  { st1 with
    progress := dictSet st1.progress tid (pipeline_error_record e now)
    downloadFiles := deleteTaskFiles tid st1.downloadFiles
    tempFiles := deleteTaskFiles tid st1.tempFiles }

/- ============ ffmpeg supervision: run_ffmpeg_with_progress (app.py 225-292) ============ -/

/-- The periodic liveness refresh inside the supervision loop (app.py 274-283):
when the task is still registered, bump `last_update`, and when its status
matches the supervised stage, rewrite the message to
`base_msg (elapsed s elapsed)...` where `base_msg` is the text before the
first parenthesis, stripped. -/
def ffmpegRefresh (tid stage : String) (now elapsed : ℚ) (m : Registry) :
    Registry :=
  match dictGet m tid with
  | none => m
  | some info =>
    let info1 := { info with lastUpdate := now }
    let info2 :=
      if info1.status = stage then
        { info1 with
          message := (info1.message.takeWhile (fun c => c ≠ '(')).trim
            ++ " (" ++ toString (Int.floor elapsed) ++ "s elapsed)..." }
      else info1
    dictSet m tid info2

/-- The polling loop of `run_ffmpeg_with_progress` (app.py 244-285), driven by
an environment: `poll i` is the child's `process.poll()` result at iteration
`i` and `timeAt i` the value of `time.time()` there (`timeAt 0` is the start
time).  On exit the handle is deregistered and `(exit == 0, stderr)` returned;
when the elapsed time exceeds the timeout the process gets a bare
`process.kill()` (recorded as `KillEvent.single`), the handle is deregistered
and `(False, "FFmpeg timeout")` returned; once per 10 seconds the liveness
refresh runs.  `fuel` bounds the number of iterations modelled; `none` means
the loop was still running after `fuel` polls. -/
def ffmpegLoop (poll : Nat → Option Int) (timeAt : Nat → ℚ) (stderrText : String)
    (timeout : ℚ) (pid : Nat) (tid stage : String) :
    Nat → Nat → ℚ → SystemState → Option ((Bool × String) × SystemState)
  | 0, _, _, _ => none
  | fuel + 1, i, lastUpd, st =>
    match poll i with
    | some code =>
      let st1 : SystemState := { st with procs := dictDelete st.procs tid }
      if code = 0 then some ((true, ""), st1) else some ((false, stderrText), st1)
    | none =>
      if timeAt i - timeAt 0 > timeout then
        some ((false, "FFmpeg timeout"),
          { st with
            procs := dictDelete st.procs tid
            kills := st.kills ++ [KillEvent.single pid] })
      else if timeAt i - lastUpd > 10 then
        ffmpegLoop poll timeAt stderrText timeout pid tid stage fuel (i + 1)
          (timeAt i)
          { st with
            progress := ffmpegRefresh tid stage (timeAt i) (timeAt i - timeAt 0)
              st.progress }
      else
        ffmpegLoop poll timeAt stderrText timeout pid tid stage fuel (i + 1)
          lastUpd st

/-- Function `run_ffmpeg_with_progress(cmd, task_id, timeout, stage)` (app.py 225-292):
start the child, register its handle under the task id, then poll. -/
def run_ffmpeg_with_progress (poll : Nat → Option Int) (timeAt : Nat → ℚ)
    (stderrText : String) (pid : Nat) (timeout : ℚ) (tid stage : String)
    (fuel : Nat) (st : SystemState) : Option ((Bool × String) × SystemState) :=
  ffmpegLoop poll timeAt stderrText timeout pid tid stage fuel 0 (timeAt 0)
    { st with procs := dictSet st.procs tid pid }

/- ============ Video branch of run_conversion (app.py 1134-1307) ============ -/

/-- The kind of ffmpeg invocation the video branch issues: a full re-encode
with the `VIDEO_ENCODE_SETTINGS` of the requested quality (app.py 1196-1230),
a container-only stream-copy remux (app.py 1231-1243), or the hardcoded
fallback re-encode used after a failed remux (app.py 1259-1273). -/
inductive EncodeKind
  | fullEncode (quality : String)
  | remux
  | fallbackEncode
deriving DecidableEq

structure EncodeCall where
  kind : EncodeKind
  timeout : Nat
deriving DecidableEq

deriving instance DecidableEq for Except

/-- The outcome of the video branch: the ffmpeg invocations issued in order,
the produced output file (or the raised error message), and whether the
original fetched file was removed afterwards. -/
structure VideoOutcome where
  calls : List EncodeCall
  result : Except String String
  deletedOriginal : Bool
deriving DecidableEq

/-- The message `f"ffmpeg error: {error[:200] if error else 'unknown error'}"`
(app.py 1276, 1278). -/
def ffmpegErrorMessage (e : String) : String :=
  "ffmpeg error: " ++ (if e = "" then "unknown error" else truncateStr 200 e)

/-- The video branch (app.py 1134-1298).  `ext` is the lowercased extension of
the fetched file; `attemptOk k` tells whether the `k`-th ffmpeg invocation of
this branch succeeded and produced its output file, `attemptErr k` its stderr.
Quality `best` on an MP4 source skips encoding entirely; quality `best` on a
WebM/MKV source remuxes (timeout capped at 300s) and falls back to one full
re-encode with a freshly computed `calculate_ffmpeg_timeout` on failure; every
other case performs one full re-encode and raises on failure. -/
def video_branch (quality ext downloadedFile outputPath : String)
    (ffmpegTimeout duration : Nat) (attemptOk : Nat → Bool)
    (attemptErr : Nat → String) : VideoOutcome :=
  if quality = "best" ∧ ext = ".mp4" then
    { calls := [], result := .ok downloadedFile, deletedOriginal := false }
  else
    let needsFullEncoding : Bool :=
      !(quality == "best" && (ext == ".webm" || ext == ".mkv"))
    let desired := outputPath ++ ".mp4"
    if needsFullEncoding then
      let c1 : EncodeCall := ⟨.fullEncode quality, ffmpegTimeout⟩
      if attemptOk 0 then
        { calls := [c1], result := .ok desired,
          deletedOriginal := downloadedFile != desired }
      else
        { calls := [c1], result := .error (ffmpegErrorMessage (attemptErr 0)),
          deletedOriginal := false }
    else
      let c1 : EncodeCall := ⟨.remux, min ffmpegTimeout 300⟩
      if attemptOk 0 then
        { calls := [c1], result := .ok desired,
          deletedOriginal := downloadedFile != desired }
      else
        let c2 : EncodeCall := ⟨.fallbackEncode, calculate_ffmpeg_timeout duration⟩
        if attemptOk 1 then
          { calls := [c1, c2], result := .ok desired,
            deletedOriginal := downloadedFile != desired }
        else
          { calls := [c1, c2], result := .error (ffmpegErrorMessage (attemptErr 1)),
            deletedOriginal := false }

/-- The file name after the last path separator (`os.path.basename`). -/
def basenameOf (s : String) : String :=
  ⟨(s.data.reverse.takeWhile (fun c => c ≠ '/')).reverse⟩

/-- The extension of a file name without its dot
(`os.path.splitext(p)[1][1:]`, app.py 1309); empty when there is no dot. -/
def extOf (s : String) : String :=
  if s.data.contains '.' then ⟨(s.data.reverse.takeWhile (fun c => c ≠ '.')).reverse⟩
  else ""

/-- The elapsed-time label `f"{int(t//60)}m {int(t%60)}s" if t >= 60 else f"{int(t)}s"`
(app.py 1313). -/
def formatElapsed (t : ℚ) : String :=
  if 60 ≤ t then
    toString (Int.floor (t / 60)) ++ "m "
      ++ toString (Int.floor (t - 60 * Int.floor (t / 60))) ++ "s"
  else toString (Int.floor t) ++ "s"

/-- Final output verification and the completed record (app.py 1302-1329):
reject a missing output or one under 1000 bytes, otherwise overwrite the
task's entry with the `completed` record. -/
def verify_and_complete (output_file : String) (existsOut : Bool)
    (final_size : Nat) (clean_title : String) (elapsed : ℚ)
    (format_type audio_format qualityRequested : String)
    (audioQualityLabel : String) (thumb_downloaded : Bool) (now : ℚ) :
    Except String TaskInfo :=
  if !existsOut then .error "Final output file not found"
  else if final_size < 1000 then .error "Output file is too small"
  else
    .ok
      { status := "completed"
        percent := 100
        message := "Ready! (took " ++ formatElapsed elapsed ++ ")"
        title := some clean_title
        filename := some (basenameOf output_file)
        file_size := some (final_size : ℚ)
        has_thumbnail := some (if format_type = "audio" then thumb_downloaded else false)
        format := some format_type
        audio_format := if format_type = "audio" then some audio_format else none
        quality := some (if format_type = "audio" then audioQualityLabel else qualityRequested)
        extension := some (extOf output_file)
        lastUpdate := now }

/- ============ Poll endpoint: get_progress (app.py 1426-1440) ============ -/

/-- The body returned by `/api/progress/<task_id>`: the task's registry entry
with the internal bookkeeping keys (`last_update`, `last_message_update`)
popped. -/
structure ProgressResponse where
  status : String
  percent : ℚ
  message : String
  speed : Option ℚ := none
  eta : Option ℚ := none
  downloaded_bytes : Option ℚ := none
  total_bytes : Option ℚ := none
  title : Option String := none
  filename : Option String := none
  file_size : Option ℚ := none
  has_thumbnail : Option Bool := none
  format : Option String := none
  audio_format : Option String := none
  quality : Option String := none
  extension : Option String := none
deriving DecidableEq

/-- The stripping `prog.pop('last_update', None); prog.pop('last_message_update', None)`:
every key of the stored record except the two internal ones. -/
def stripInternal (i : TaskInfo) : ProgressResponse :=
  { status := i.status
    percent := i.percent
    message := i.message
    speed := i.speed
    eta := i.eta
    downloaded_bytes := i.downloaded_bytes
    total_bytes := i.total_bytes
    title := i.title
    filename := i.filename
    file_size := i.file_size
    has_thumbnail := i.has_thumbnail
    format := i.format
    audio_format := i.audio_format
    quality := i.quality
    extension := i.extension }

/-- The synthetic response for an unrecognized task id (app.py 1430-1434). -/
def unknownTaskResponse : ProgressResponse :=
  { status := "unknown", percent := 0, message := "Task not found" }

/-- Handler `get_progress(task_id)` (app.py 1426-1440). -/
def get_progress (m : Registry) (tid : String) : ProgressResponse :=
  match dictGet m tid with
  | some info => stripInternal info
  | none => unknownTaskResponse

/- ============ Metadata and submit endpoints (app.py 781-848, 867-895) ============ -/

/-- The descriptive metadata the fetcher extracts that these endpoints read. -/
structure ExtractedInfo where
  title : String
  uploader : String
  duration : Nat
deriving DecidableEq

def pad2 (n : Nat) : String :=
  if n < 10 then "0" ++ toString n else toString n

/-- The display formatting of the duration (app.py 813-823). -/
def format_duration (d : Nat) : String :=
  if d ≠ 0 then
    let hours := d / 3600
    let minutes := (d % 3600) / 60
    let seconds := d % 60
    if hours > 0 then
      toString hours ++ ":" ++ pad2 minutes ++ ":" ++ pad2 seconds
    else toString minutes ++ ":" ++ pad2 seconds
  else "Unknown"

structure VideoInfoResponse where
  success : Bool
  title : String
  duration : Nat
  duration_formatted : String
  uploader : String
deriving DecidableEq

/-- The `/api/video-info` handler `get_video_info` (app.py 781-848), with the
URL-validation outcome abstracted into the booleans `urlEmpty`/`urlValid`
(the same `normalize_youtube_url`/`validate_url` glue both endpoints share)
and the fetcher's extraction result passed in.  The `MAX_DURATION` gate
(app.py 808-811) rejects any truthy duration above the cap with HTTP 400. -/
def get_video_info (urlEmpty urlValid : Bool) (info : ExtractedInfo) :
    Except (String × Nat) VideoInfoResponse :=
  if urlEmpty then .error ("URL is required", 400)
  else if !urlValid then .error ("Unsupported URL", 400)
  else if info.duration ≠ 0 ∧ info.duration > MAX_DURATION then
    .error ("Video too long. Max " ++ toString (MAX_DURATION / 3600)
      ++ " hours allowed.", 400)
  else
    .ok
      { success := true
        title := info.title
        duration := info.duration
        duration_formatted := format_duration info.duration
        uploader := info.uploader }

/-- The audio-format ids of the `AUDIO_FORMATS` catalog (app.py 104-153). -/
def AUDIO_FORMAT_IDS : List String := ["mp3", "aac", "opus", "ogg"]

/-- The `/api/convert` handler `convert_media` (app.py 867-895), URL validation
abstracted as in `get_video_info`.  It consults no media metadata at all: a
valid URL always yields a fresh task in `initializing` state and a detached
`run_conversion` is started.  The returned triple is the updated registry, the
task id handed back to the client, and the effective audio format (unknown
audio formats fall back to mp3). -/
def convert_media (urlEmpty urlValid : Bool)
    (format_type _quality audio_format : String) (tid : String) (now : ℚ)
    (m : Registry) : Except (String × Nat) (Registry × String × String) :=
  if urlEmpty then .error ("URL is required", 400)
  else if !urlValid then .error ("Unsupported URL", 400)
  else
    let audio_format :=
      if format_type = "audio" ∧ ¬ AUDIO_FORMAT_IDS.contains audio_format then "mp3"
      else audio_format
    .ok (dictSet m tid (initial_task_record now), tid, audio_format)

/-- The only uses `run_conversion` makes of the media duration: deriving the
two timeouts (app.py 936-937).  No duration cap is checked on this path. -/
def run_conversion_timeouts (video_duration : Nat) : Nat × Nat :=
  (calculate_timeout video_duration, calculate_ffmpeg_timeout video_duration)

/- ============ Admission gate (app.py 78, 901-909, 1370-1372) ============ -/

/-- The state of the counting semaphore `active_downloads` together with the
number of `run_conversion` bodies currently executing past the admission
point. -/
structure GateState where
  available : Nat
  running : Nat
deriving DecidableEq

/-- The semaphore events of the service: a successful
`active_downloads.acquire(timeout=120)` (only possible when a permit is free)
admits a pipeline; a timed-out acquire leaves the state unchanged (the task
fails with "Server busy"); a finishing pipeline (its `finally`) releases its
permit. -/
inductive GateStep : GateState → GateState → Prop
  | acquire (s : GateState) (h : 0 < s.available) :
      GateStep s ⟨s.available - 1, s.running + 1⟩
  | acquireTimedOut (s : GateState) : GateStep s s
  | finish (s : GateState) (h : 0 < s.running) :
      GateStep s ⟨s.available + 1, s.running - 1⟩

/-- The initial gate: `threading.Semaphore(MAX_CONCURRENT_DOWNLOADS)` with no pipeline running. -/
def initialGate : GateState := ⟨MAX_CONCURRENT_DOWNLOADS, 0⟩

inductive GateReachable : GateState → Prop
  | init : GateReachable initialGate
  | step {s s' : GateState} : GateReachable s → GateStep s s' → GateReachable s'

inductive SemOp
  | acquireOk
  | acquireFail
  | release
deriving DecidableEq

/-- The semaphore operations one `run_conversion` run performs (app.py
901-1372): `acquired = active_downloads.acquire(timeout=120)`; a failed
acquire raises "Server busy" (caught by the handler, no release in `finally`
since `acquired` is false); after a successful acquire the try body touches
the semaphore nowhere — whether it completes or raises — and the `finally`
clause releases the permit exactly once. -/
def run_conversion_sem_ops (acquireOk bodyRaises : Bool) : List SemOp :=
  if acquireOk then
    let bodyOps : List SemOp := if bodyRaises then [] else []
    SemOp.acquireOk :: bodyOps ++ [SemOp.release]
  else [SemOp.acquireFail]

/- ===================== Sample states used by the witnesses ===================== -/

def sampleDownInfo : TaskInfo :=
  { status := "downloading", percent := dlPercent 100 40, message := "m",
    lastUpdate := 1, lastMessageUpdate := 1 }

def sampleStallInfo : TaskInfo :=
  { status := "downloading", percent := 42, message := "m", lastUpdate := 10 }

def sampleStallState : SystemState :=
  { progress := [("t", sampleStallInfo)], procs := [("t", 99)],
    downloadFiles := ["t.mp4", "other.mp4"], tempFiles := ["t_thumb.jpg"],
    kills := [] }

/-- A poll schedule for the supervision-loop witnesses: the child never exits
and the clock reads 0, 1, 5 seconds at successive poll iterations. -/
def sampleSchedule (i : Nat) : ℚ :=
  if i = 0 then 0 else if i = 1 then 1 else 5

def sampleErrorState : SystemState :=
  { progress := [("t", initial_task_record 0)], procs := [("t", 5)],
    downloadFiles := ["tfile.mp4"], tempFiles := [], kills := [] }

/- ===================== Dictionary lemmas ===================== -/

theorem dictGet_dictSet_self {β : Type} (m : List (String × β)) (k : String)
    (v : β) : dictGet (dictSet m k v) k = some v := by
  induction m with
  | nil => simp [dictSet, dictGet]
  | cons p rest ih =>
    by_cases h : p.1 = k
    · simp [dictSet, dictGet, h]
    · simp [dictSet, dictGet, h, ih]

theorem dictGet_dictSet_ne {β : Type} (m : List (String × β)) {k k' : String}
    (v : β) (h : k' ≠ k) : dictGet (dictSet m k v) k' = dictGet m k' := by
  have hk : ¬ k = k' := fun he => h he.symm
  induction m with
  | nil => simp [dictSet, dictGet, hk]
  | cons p rest ih =>
    by_cases hp : p.1 = k
    · have hp' : ¬ p.1 = k' := by rw [hp]; exact hk
      simp [dictSet, dictGet, hp, hk, hp']
    · simp [dictSet, dictGet, hp, ih]

theorem not_mem_dictDelete {β : Type} (m : List (String × β)) (k : String)
    (v : β) : (k, v) ∉ dictDelete m k := by
  induction m with
  | nil => simp [dictDelete]
  | cons p rest ih =>
    by_cases hp : p.1 = k
    · simpa [dictDelete, hp] using ih
    · intro hmem
      rcases (List.mem_cons).1 (by simpa [dictDelete, hp] using hmem) with he | htail
      · exact hp (by rw [← he])
      · exact ih htail

theorem mem_dictDelete {β : Type} {m : List (String × β)} {k : String}
    {x : String × β} (h : x ∈ dictDelete m k) : x ∈ m := by
  induction m with
  | nil => simp [dictDelete] at h
  | cons p rest ih =>
    by_cases hp : p.1 = k
    · exact List.mem_cons_of_mem _ (ih (by simpa [dictDelete, hp] using h))
    · rcases (List.mem_cons).1 (by simpa [dictDelete, hp] using h) with he | htail
      · exact he ▸ List.mem_cons_self _ _
      · exact List.mem_cons_of_mem _ (ih htail)

theorem dictGet_dictDelete_ne {β : Type} (m : List (String × β)) {k k' : String}
    (h : k' ≠ k) : dictGet (dictDelete m k) k' = dictGet m k' := by
  induction m with
  | nil => simp [dictDelete]
  | cons p rest ih =>
    by_cases hp : p.1 = k
    · have hk' : ¬ k = k' := fun he => h he.symm
      simp [dictDelete, dictGet, hp, hk', ih]
    · simp [dictDelete, dictGet, hp, ih]

theorem not_mem_of_dictGet_none {β : Type} {m : List (String × β)} {k : String}
    (h : dictGet m k = none) (v : β) : (k, v) ∉ m := by
  induction m with
  | nil => simp
  | cons p rest ih =>
    by_cases hp : p.1 = k
    · simp [dictGet, hp] at h
    · simp only [dictGet, hp, if_false] at h
      intro hmem
      rcases (List.mem_cons).1 hmem with he | htail
      · exact hp (by rw [← he])
      · exact ih h htail

theorem dictGet_of_mem_nodup {β : Type} {m : List (String × β)} {k : String}
    {v : β} (hmem : (k, v) ∈ m) (hnodup : (m.map Prod.fst).Nodup) :
    dictGet m k = some v := by
  induction m with
  | nil => simp at hmem
  | cons p rest ih =>
    rcases (List.mem_cons).1 hmem with he | htail
    · simp [dictGet, ← he]
    · rw [List.map_cons] at hnodup
      have hnd := List.nodup_cons.1 hnodup
      have hkrest : k ∈ rest.map Prod.fst :=
        List.mem_map_of_mem Prod.fst htail
      have hp : p.1 ≠ k := fun he' => hnd.1 (he' ▸ hkrest)
      simp [dictGet, hp, ih htail hnd.2]

theorem mem_deleteTaskFiles {tid f : String} {files : List String}
    (h : f ∈ deleteTaskFiles tid files) :
    f ∈ files ∧ String.isPrefixOf tid f = false := by
  have := List.mem_filter.1 h
  exact ⟨this.1, by simpa using this.2⟩

/- ===================== C2: timeout policy ===================== -/

/-- C2 counterexample: the spec's reference value `downloadTimeout(7200)==2520`
is wrong — the code computes 600 + 120*12 + 60*6 = 2400. -/
theorem c2_timeout_counterexample :
    calculate_timeout 7200 = 2400 ∧ calculate_timeout 7200 ≠ 2520 := by
  constructor
  · decide
  · decide

/-- C2 (amended): the timeout-policy reference values as computed by the code —
`calculate_timeout 0 = 3600`, `calculate_timeout 600 = 720`,
`calculate_timeout 7200 = 2400` (not 2520), `calculate_ffmpeg_timeout 600 = 600`,
`calculate_ffmpeg_timeout 0 = 1800` — and both functions are capped at 7200 for
every input, including 10_000_000. -/
theorem c2_timeout_policy :
    calculate_timeout 0 = 3600 ∧
    calculate_timeout 600 = 720 ∧
    calculate_timeout 7200 = 2400 ∧
    calculate_ffmpeg_timeout 600 = 600 ∧
    calculate_ffmpeg_timeout 0 = 1800 ∧
    calculate_timeout 10000000 = 7200 ∧
    calculate_ffmpeg_timeout 10000000 = 7200 ∧
    ∀ d : Nat, calculate_timeout d ≤ 7200 ∧ calculate_ffmpeg_timeout d ≤ 7200 := by
  refine ⟨by decide, by decide, by decide, by decide, by decide, by decide,
    by decide, ?_⟩
  intro d
  constructor
  · rw [calculate_timeout]
    split
    · decide
    · exact min_le_right _ _
  · rw [calculate_ffmpeg_timeout]
    split
    · decide
    · exact min_le_right _ _

/- ===================== C1: admission gate ===================== -/

theorem gate_sum_inv {s : GateState} (h : GateReachable s) :
    s.available + s.running = MAX_CONCURRENT_DOWNLOADS := by
  induction h with
  | init => rfl
  | step _ hs ih =>
    cases hs with
    | acquire h => dsimp only; omega
    | acquireTimedOut => exact ih
    | finish h => dsimp only; omega

/-- C1: in every reachable state of the admission gate the number of
`run_conversion` bodies executing past the admission point is at most
`MAX_CONCURRENT_DOWNLOADS`, and one `run_conversion` run releases the permit
exactly once when it acquired one — whether its body completes or raises —
and never otherwise. -/
theorem c1_admission_gate :
    (∀ s : GateState, GateReachable s → s.running ≤ MAX_CONCURRENT_DOWNLOADS) ∧
    (∀ a b : Bool,
      (run_conversion_sem_ops a b).count SemOp.release
        = (run_conversion_sem_ops a b).count SemOp.acquireOk ∧
      (a = true → (run_conversion_sem_ops a b).count SemOp.release = 1)) := by
  constructor
  · intro s hs
    have h := gate_sum_inv hs
    omega
  · intro a b
    cases a <;> cases b <;> exact ⟨by decide, by decide⟩

theorem c1_admission_gate_witness :
    initialGate.running ≤ MAX_CONCURRENT_DOWNLOADS ∧
    (run_conversion_sem_ops true true).count SemOp.release = 1 :=
  ⟨c1_admission_gate.1 initialGate GateReachable.init,
   (c1_admission_gate.2 true true).2 rfl⟩

/- ===================== C6: poll endpoint ===================== -/

/-- C6: polling an id absent from the registry yields the well-formed synthetic
`unknown` response (never an absent result), and polling a present id yields
exactly the stored snapshot with the internal bookkeeping fields
(`last_update`, `last_message_update`) stripped — the response does not depend
on them. -/
theorem c6_poll (m : Registry) (tid : String) :
    (dictGet m tid = none →
      get_progress m tid = unknownTaskResponse ∧
      (get_progress m tid).status = "unknown") ∧
    (∀ info, dictGet m tid = some info → get_progress m tid = stripInternal info) ∧
    (∀ (info : TaskInfo) (lu lmu : ℚ),
      stripInternal { info with lastUpdate := lu, lastMessageUpdate := lmu }
        = stripInternal info) := by
  refine ⟨?_, ?_, ?_⟩
  · intro h
    rw [get_progress, h]
    exact ⟨rfl, rfl⟩
  · intro info h
    rw [get_progress, h]
  · intro info lu lmu
    rfl

theorem c6_poll_witness :
    get_progress [] "missing" = unknownTaskResponse ∧
    (get_progress [] "missing").status = "unknown" :=
  (c6_poll [] "missing").1 rfl

/- ===================== C10: duration cap only on DescribeMedia ===================== -/

/-- C10: the 4-hour `MAX_DURATION` cap is enforced only by the metadata
endpoint: `get_video_info` rejects any media longer than the cap with a 400
"Video too long" error, while `convert_media` — which consults no media
metadata at all — accepts the same valid URL, creates an `initializing` task,
and spawns the pipeline, whose only use of the duration is deriving the two
timeouts. -/
theorem c10_duration_gate (urlValid : Bool) (info : ExtractedInfo)
    (fmt q af tid : String) (now : ℚ) (m : Registry)
    (hv : urlValid = true) (hd : MAX_DURATION < info.duration) :
    get_video_info false urlValid info
      = .error ("Video too long. Max 4 hours allowed.", 400) ∧
    convert_media false urlValid fmt q af tid now m
      = .ok (dictSet m tid (initial_task_record now), tid,
          if fmt = "audio" ∧ ¬ AUDIO_FORMAT_IDS.contains af then "mp3" else af) ∧
    run_conversion_timeouts info.duration
      = (calculate_timeout info.duration, calculate_ffmpeg_timeout info.duration) := by
  subst hv
  have h14 : (14400 : Nat) < info.duration := hd
  have h0 : info.duration ≠ 0 := by omega
  refine ⟨?_, ?_, rfl⟩
  · rw [get_video_info,
      if_neg (show ¬ ((false : Bool) = true) by decide),
      if_neg (show ¬ ((!(true : Bool)) = true) by decide),
      if_pos (show info.duration ≠ 0 ∧ info.duration > MAX_DURATION from ⟨h0, hd⟩)]
    decide
  · simp [convert_media]

theorem c10_duration_gate_witness :
    get_video_info false true ⟨"T", "U", 15000⟩
      = .error ("Video too long. Max 4 hours allowed.", 400) :=
  (c10_duration_gate true ⟨"T", "U", 15000⟩ "video" "best" "mp3" "t" 0 []
    rfl (by decide)).1

/- ===================== C4: pipeline exception handler ===================== -/

/-- C4: whatever exception escapes a pipeline run, the outermost handler kills
(tree-kill) and deregisters any process still attributed to the task,
overwrites the task's registry entry with status `error` and the exception
message truncated to 300 characters behind an "Error: " prefix (never a stack
trace), and deletes every task-id-prefixed file from both working folders. -/
theorem c4_error_handler (e : String) (now : ℚ) (tid : String)
    (st : SystemState) :
    dictGet (run_conversion_error_handler e now tid st).progress tid
      = some (pipeline_error_record e now) ∧
    (pipeline_error_record e now).status = "error" ∧
    (pipeline_error_record e now).message = "Error: " ++ truncateStr 300 e ∧
    (truncateStr 300 e).length ≤ 300 ∧
    (∀ pid, dictGet st.procs tid = some pid →
      KillEvent.tree pid ∈ (run_conversion_error_handler e now tid st).kills) ∧
    (∀ q : Nat, (tid, q) ∉ (run_conversion_error_handler e now tid st).procs) ∧
    (∀ f ∈ (run_conversion_error_handler e now tid st).downloadFiles,
      String.isPrefixOf tid f = false) ∧
    (∀ f ∈ (run_conversion_error_handler e now tid st).tempFiles,
      String.isPrefixOf tid f = false) := by
  have hlen : (truncateStr 300 e).length ≤ 300 := by
    simp only [truncateStr, String.length]
    exact le_trans (le_of_eq (List.length_take _ _)) (min_le_left _ _)
  cases hp : dictGet st.procs tid with
  | none =>
    refine ⟨?_, rfl, rfl, hlen, ?_, ?_, ?_, ?_⟩
    · simp only [run_conversion_error_handler, hp]
      exact dictGet_dictSet_self _ _ _
    · intro pid hpid
      simp [hp] at hpid
    · intro q
      simp only [run_conversion_error_handler, hp]
      exact not_mem_of_dictGet_none hp q
    · intro f hf
      simp only [run_conversion_error_handler, hp] at hf
      exact (mem_deleteTaskFiles hf).2
    · intro f hf
      simp only [run_conversion_error_handler, hp] at hf
      exact (mem_deleteTaskFiles hf).2
  | some pid0 =>
    refine ⟨?_, rfl, rfl, hlen, ?_, ?_, ?_, ?_⟩
    · simp only [run_conversion_error_handler, hp]
      exact dictGet_dictSet_self _ _ _
    · intro pid hpid
      injection hpid with hpe
      subst hpe
      simp only [run_conversion_error_handler, hp]
      exact List.mem_append_right _ (List.mem_singleton.2 rfl)
    · intro q
      simp only [run_conversion_error_handler, hp]
      exact not_mem_dictDelete _ _ _
    · intro f hf
      simp only [run_conversion_error_handler, hp] at hf
      exact (mem_deleteTaskFiles hf).2
    · intro f hf
      simp only [run_conversion_error_handler, hp] at hf
      exact (mem_deleteTaskFiles hf).2

theorem c4_error_handler_witness :
    KillEvent.tree 5 ∈ (run_conversion_error_handler "boom" 9 "t" sampleErrorState).kills ∧
    dictGet (run_conversion_error_handler "boom" 9 "t" sampleErrorState).progress "t"
      = some (pipeline_error_record "boom" 9) :=
  ⟨(c4_error_handler "boom" 9 "t" sampleErrorState).2.2.2.2.1 5 (by decide),
   (c4_error_handler "boom" 9 "t" sampleErrorState).1⟩

/- ===================== C8: best-quality MP4 skips the encoder ===================== -/

/-- C8: a video job with quality `best` whose fetched file already is an `.mp4`
invokes no encoder process at all (no ffmpeg call is issued), keeps the fetched
file itself as the final output without deleting or rewriting it, and the task
completes with the original file size recorded. -/
theorem c8_best_mp4 (downloadedFile outputPath : String) (t dur size : Nat)
    (ok : Nat → Bool) (err : Nat → String) (clean_title : String)
    (elapsed now : ℚ) (hsize : 1000 ≤ size) :
    video_branch "best" ".mp4" downloadedFile outputPath t dur ok err
      = { calls := [], result := .ok downloadedFile, deletedOriginal := false } ∧
    verify_and_complete downloadedFile true size clean_title elapsed
        "video" "mp3" "best" "320kbps" false now
      = .ok
          { status := "completed"
            percent := 100
            message := "Ready! (took " ++ formatElapsed elapsed ++ ")"
            title := some clean_title
            filename := some (basenameOf downloadedFile)
            file_size := some (size : ℚ)
            has_thumbnail := some false
            format := some "video"
            audio_format := none
            quality := some "best"
            extension := some (extOf downloadedFile)
            lastUpdate := now } := by
  constructor
  · simp [video_branch]
  · have hns : ¬ size < 1000 := by omega
    simp [verify_and_complete, hns]

theorem c8_best_mp4_witness :
    video_branch "best" ".mp4" "d.mp4" "downloads/x" 1800 600
        (fun _ => true) (fun _ => "")
      = { calls := [], result := .ok "d.mp4", deletedOriginal := false } :=
  (c8_best_mp4 "d.mp4" "downloads/x" 1800 600 5000 (fun _ => true) (fun _ => "")
    "T" 10 99 (by decide)).1

/- ===================== C9: remux retried once with full re-encode ===================== -/

/-- C9: on the video path, a failed stream-copy remux (quality `best` with a
WebM/MKV source) is followed by exactly one full re-encode whose timeout is
freshly recomputed with `calculate_ffmpeg_timeout` (not the remux's 300s cap);
if that fallback also fails the task errors with no further attempt.  Any
other failed full re-encode is never retried: exactly one invocation, then the
error is raised. -/
theorem c9_remux_fallback (quality ext downloadedFile outputPath : String)
    (t dur : Nat) (ok : Nat → Bool) (err : Nat → String) :
    (quality = "best" → (ext = ".webm" ∨ ext = ".mkv") → ok 0 = false →
      (video_branch quality ext downloadedFile outputPath t dur ok err).calls
        = [⟨.remux, min t 300⟩, ⟨.fallbackEncode, calculate_ffmpeg_timeout dur⟩] ∧
      (ok 1 = false →
        (video_branch quality ext downloadedFile outputPath t dur ok err).result
          = .error (ffmpegErrorMessage (err 1))) ∧
      (ok 1 = true →
        (video_branch quality ext downloadedFile outputPath t dur ok err).result
          = .ok (outputPath ++ ".mp4"))) ∧
    (¬ (quality = "best" ∧ ext = ".mp4") →
      ¬ (quality = "best" ∧ (ext = ".webm" ∨ ext = ".mkv")) → ok 0 = false →
      (video_branch quality ext downloadedFile outputPath t dur ok err).calls
        = [⟨.fullEncode quality, t⟩] ∧
      (video_branch quality ext downloadedFile outputPath t dur ok err).result
        = .error (ffmpegErrorMessage (err 0))) := by
  constructor
  · intro hq hext h0
    subst hq
    have hmp4 : ¬ ("best" = "best" ∧ ext = ".mp4") := by
      rcases hext with he | he <;> subst he <;> simp
    have hbeq : (("best" : String) == "best"
        && (ext == ".webm" || ext == ".mkv")) = true := by
      rcases hext with he | he <;> subst he <;> decide
    rw [video_branch, if_neg hmp4]
    rw [hbeq]
    simp only [Bool.not_true, Bool.false_eq_true, if_false, h0]
    cases h1 : ok 1 <;> simp
  · intro hmp4 hother h0
    have hbeq : ((quality == "best" && (ext == ".webm" || ext == ".mkv"))) = false := by
      rw [Bool.and_eq_false_iff]
      by_cases hq : quality = "best"
      · right
        rw [Bool.or_eq_false_iff]
        constructor
        · exact beq_eq_false_iff_ne.2 fun he => hother ⟨hq, Or.inl he⟩
        · exact beq_eq_false_iff_ne.2 fun he => hother ⟨hq, Or.inr he⟩
      · left
        exact beq_eq_false_iff_ne.2 hq
    rw [video_branch, if_neg hmp4]
    rw [hbeq]
    simp only [Bool.not_false, if_true, h0]
    simp

theorem c9_remux_fallback_witness :
    (video_branch "best" ".webm" "d.webm" "downloads/x" 1800 600
        (fun _ => false) (fun _ => "x")).calls
      = [⟨.remux, 300⟩, ⟨.fallbackEncode, 600⟩] ∧
    (video_branch "best" ".webm" "d.webm" "downloads/x" 1800 600
        (fun _ => false) (fun _ => "x")).result
      = .error (ffmpegErrorMessage "x") := by
  have h := (c9_remux_fallback "best" ".webm" "d.webm" "downloads/x" 1800 600
    (fun _ => false) (fun _ => "x")).1 rfl (Or.inl rfl) rfl
  exact ⟨h.1, h.2.1 rfl⟩

/- ===================== C5: supervisor timeout kill ===================== -/

theorem ffmpegLoop_timeout_result (poll : Nat → Option Int) (timeAt : Nat → ℚ)
    (stderrText : String) (timeout : ℚ) (pid : Nat) (tid stage : String)
    (hpoll : ∀ j, poll j = none) :
    ∀ (fuel i : Nat) (lastUpd : ℚ) (st : SystemState) (r : Bool × String)
      (st' : SystemState),
      ffmpegLoop poll timeAt stderrText timeout pid tid stage fuel i lastUpd st
        = some (r, st') →
      r = (false, "FFmpeg timeout") ∧ KillEvent.single pid ∈ st'.kills ∧
      (∀ q : Nat, (tid, q) ∉ st'.procs) := by
  intro fuel
  induction fuel with
  | zero =>
    intro i lastUpd st r st' h
    simp [ffmpegLoop] at h
  | succ n ih =>
    intro i lastUpd st r st' h
    rw [ffmpegLoop, hpoll i] at h
    by_cases ht : timeAt i - timeAt 0 > timeout
    · rw [if_pos ht] at h
      rw [Option.some.injEq, Prod.mk.injEq] at h
      refine ⟨h.1.symm, ?_, ?_⟩
      · rw [← h.2]
        exact List.mem_append_right _ (List.mem_singleton.2 rfl)
      · intro q
        rw [← h.2]
        exact not_mem_dictDelete _ _ _
    · rw [if_neg ht] at h
      by_cases hr : timeAt i - lastUpd > 10
      · rw [if_pos hr] at h
        exact ih _ _ _ _ _ h
      · rw [if_neg hr] at h
        exact ih _ _ _ _ _ h

/-- C5 (amended): when the supervision timeout of `run_ffmpeg_with_progress`
fires (the child never reports an exit), the loop force-kills the supervised
process with a bare `process.kill()` — a single-process kill, not the
`kill_process_tree` tree kill — removes the task's entry from the
active-process registry, and returns the failure `(False, "FFmpeg timeout")`;
it never lets the process silently continue. -/
theorem c5_timeout_single_kill (poll : Nat → Option Int) (timeAt : Nat → ℚ)
    (stderrText : String) (pid : Nat) (timeout : ℚ) (tid stage : String)
    (hpoll : ∀ j, poll j = none) (fuel : Nat) (st : SystemState)
    (r : Bool × String) (st' : SystemState)
    (h : run_ffmpeg_with_progress poll timeAt stderrText pid timeout tid stage
        fuel st = some (r, st')) :
    r = (false, "FFmpeg timeout") ∧ KillEvent.single pid ∈ st'.kills ∧
    (∀ q : Nat, (tid, q) ∉ st'.procs) := by
  rw [run_ffmpeg_with_progress] at h
  exact ffmpegLoop_timeout_result poll timeAt stderrText timeout pid tid stage
    hpoll fuel 0 (timeAt 0) _ r st' h

theorem ffmpeg_sample_run :
    run_ffmpeg_with_progress (fun _ => none) sampleSchedule "" 7 1 "t"
        "processing" 4 (SystemState.mk [] [] [] [] [])
      = some ((false, "FFmpeg timeout"),
          SystemState.mk [] [] [] [] [KillEvent.single 7]) := by
  norm_num [run_ffmpeg_with_progress, ffmpegLoop, sampleSchedule, dictSet,
    dictDelete]

theorem c5_timeout_single_kill_witness :
    KillEvent.single 7
      ∈ (SystemState.mk [] [] [] [] [KillEvent.single 7]).kills ∧
    ∀ q : Nat, ("t", q) ∉ (SystemState.mk [] [] [] [] [KillEvent.single 7]).procs :=
  ⟨(c5_timeout_single_kill (fun _ => none) sampleSchedule "" 7 1 "t"
      "processing" (fun _ => rfl) 4 (SystemState.mk [] [] [] [] [])
      (false, "FFmpeg timeout") (SystemState.mk [] [] [] [] [KillEvent.single 7])
      ffmpeg_sample_run).2.1,
   (c5_timeout_single_kill (fun _ => none) sampleSchedule "" 7 1 "t"
      "processing" (fun _ => rfl) 4 (SystemState.mk [] [] [] [] [])
      (false, "FFmpeg timeout") (SystemState.mk [] [] [] [] [KillEvent.single 7])
      ffmpeg_sample_run).2.2⟩

/-- C5 counterexample: a concrete timed-out supervision run.  The only kill the
supervisor performs on timeout is `KillEvent.single` (the bare
`process.kill()` of app.py 265), which is not the process-tree kill
(`kill_process_tree`) the claim asserts — descendants are not killed on this
path. -/
theorem c5_tree_kill_counterexample :
    run_ffmpeg_with_progress (fun _ => none) sampleSchedule "" 7 1 "t"
        "processing" 4 (SystemState.mk [] [] [] [] [])
      = some ((false, "FFmpeg timeout"),
          SystemState.mk [] [] [] [] [KillEvent.single 7]) ∧
    KillEvent.single 7 ≠ KillEvent.tree 7 :=
  ⟨ffmpeg_sample_run, by decide⟩

/- ===================== C7: percent monotonicity ===================== -/

theorem dictSet_dictSet {β : Type} (m : List (String × β)) (k : String)
    (a b : β) : dictSet (dictSet m k a) k b = dictSet m k b := by
  induction m with
  | nil => simp [dictSet]
  | cons p rest ih =>
    by_cases hp : p.1 = k
    · simp [dictSet, hp]
    · simp [dictSet, hp, ih]

/-- Evaluation of the hook on a `downloading` event with a known positive
total: `last_update` is always refreshed, and the recomputed percent/message
are written exactly when the percent moved at least 0.5 or the last message is
older than 5 seconds. -/
theorem progress_hook_downloading_total (tid : String) (m : Registry)
    (info : TaskInfo) (t est d sp et now : ℚ) (ht : 0 < t)
    (hget : dictGet m tid = some info) :
    progress_hook ⟨"downloading", some t, est, d, sp, et⟩ tid now m
      = if 1 / 2 ≤ |dlPercent t d - info.percent|
            ∨ 5 < now - info.lastMessageUpdate then
          dictSet m tid
            { info with
              status := "downloading"
              percent := dlPercent t d
              speed := some sp
              eta := some et
              downloaded_bytes := some d
              total_bytes := some t
              message := knownTotalMessage (dlPercent t d) d t sp et
              lastUpdate := now
              lastMessageUpdate := now }
        else dictSet m tid { info with lastUpdate := now } := by
  rw [progress_hook, hget]
  have hne : t ≠ 0 := ne_of_gt ht
  simp only [hne, ht, if_pos, if_true, ite_true, ne_eq, not_false_eq_true]
  simp only [dlPercent]
  rw [dictSet_dictSet]

/-- Evaluation of the hook on a `downloading` event with no known total
(`total_bytes` absent, estimate 0): the trickle branch. -/
theorem progress_hook_downloading_unknown (tid : String) (m : Registry)
    (info : TaskInfo) (d sp et now : ℚ)
    (hget : dictGet m tid = some info) :
    progress_hook ⟨"downloading", none, 0, d, sp, et⟩ tid now m
      = if 1 / 2 ≤ |min (info.percent + 3 / 10) 85 - info.percent|
            ∨ 5 < now - info.lastMessageUpdate then
          dictSet m tid
            { info with
              status := "downloading"
              percent := min (info.percent + 3 / 10) 85
              speed := some sp
              eta := some et
              downloaded_bytes := some d
              total_bytes := some 0
              message := "Downloading... "
                ++ toString (Int.floor (min (info.percent + 3 / 10) 85)) ++ "%"
              lastUpdate := now
              lastMessageUpdate := now }
        else dictSet m tid { info with lastUpdate := now } := by
  rw [progress_hook, hget]
  dsimp only
  rw [if_pos rfl]
  rw [if_neg (lt_irrefl (0 : ℚ))]
  rw [dictSet_dictSet]

/-- Evaluation of the hook on a `finished` event: unconditional transition to
`processing` at percent 87. -/
theorem progress_hook_finished (tid : String) (m : Registry) (info : TaskInfo)
    (tb : Option ℚ) (est d sp et now : ℚ)
    (hget : dictGet m tid = some info) :
    progress_hook ⟨"finished", tb, est, d, sp, et⟩ tid now m
      = dictSet m tid
          { info with
            status := "processing"
            percent := 87
            message := "Download complete. Processing file..."
            lastUpdate := now } := by
  rw [progress_hook, hget]
  dsimp only
  rw [if_neg (by decide : ¬ ("finished" : String) = "downloading")]
  rw [if_pos rfl, dictSet_dictSet]

theorem dlPercent_mono {t d0 d1 : ℚ} (ht : 0 < t) (h : d0 ≤ d1) :
    dlPercent t d0 ≤ dlPercent t d1 := by
  unfold dlPercent
  gcongr

/-- C7 (amended): the stored percent never decreases under progress-hook
`downloading` updates when the event totals are a fixed positive value with
non-decreasing downloaded byte counts, and never decreases under unknown-total
trickle updates while the stored percent is at most 85.  (The hook's
`finished` write at percent 87 followed by the pipeline's locate-file write at
86 is the one non-terminal decreasing handoff — see the counterexample — and
terminal error/cancel overwrites may also lower the percent.) -/
theorem c7_percent_monotonic :
    (∀ (tid : String) (m : Registry) (info : TaskInfo) (t est d0 d1 sp et now : ℚ),
      0 < t → d0 ≤ d1 → dictGet m tid = some info →
      info.percent = dlPercent t d0 →
      ∀ q : ℚ,
        (dictGet (progress_hook ⟨"downloading", some t, est, d1, sp, et⟩ tid now m)
            tid).map TaskInfo.percent = some q →
        info.percent ≤ q) ∧
    (∀ (tid : String) (m : Registry) (info : TaskInfo) (d sp et now : ℚ),
      dictGet m tid = some info → info.percent ≤ 85 →
      ∀ q : ℚ,
        (dictGet (progress_hook ⟨"downloading", none, 0, d, sp, et⟩ tid now m)
            tid).map TaskInfo.percent = some q →
        info.percent ≤ q) := by
  constructor
  · intro tid m info t est d0 d1 sp et now ht hd hget hp q hq
    rw [progress_hook_downloading_total tid m info t est d1 sp et now ht hget] at hq
    split at hq
    · rw [dictGet_dictSet_self] at hq
      simp at hq
      rw [← hq]
      rw [hp]
      exact dlPercent_mono ht hd
    · rw [dictGet_dictSet_self] at hq
      simp at hq
      rw [← hq]
  · intro tid m info d sp et now hget h85 q hq
    rw [progress_hook_downloading_unknown tid m info d sp et now hget] at hq
    split at hq
    · rw [dictGet_dictSet_self] at hq
      simp at hq
      rw [← hq]
      exact le_min (by linarith) h85
    · rw [dictGet_dictSet_self] at hq
      simp at hq
      rw [← hq]

theorem c7_percent_monotonic_witness :
    sampleDownInfo.percent ≤ dlPercent 100 60 := by
  have hget : dictGet [("t", sampleDownInfo)] "t" = some sampleDownInfo := rfl
  have hq : (dictGet (progress_hook ⟨"downloading", some 100, 0, 60, 0, 0⟩ "t" 2
      [("t", sampleDownInfo)]) "t").map TaskInfo.percent = some (dlPercent 100 60) := by
    rw [progress_hook_downloading_total "t" [("t", sampleDownInfo)] sampleDownInfo
      100 0 60 0 0 2 (by norm_num) hget]
    rw [if_pos]
    · rw [dictGet_dictSet_self]
      rfl
    · left
      rw [show sampleDownInfo.percent = dlPercent 100 40 from rfl]
      rw [show dlPercent 100 60 = 51 by norm_num [dlPercent, min_def]]
      rw [show dlPercent 100 40 = 34 by norm_num [dlPercent, min_def]]
      norm_num
  exact c7_percent_monotonic.1 "t" [("t", sampleDownInfo)] sampleDownInfo
    100 0 40 60 0 0 2 (by norm_num) (by norm_num) hget rfl (dlPercent 100 60) hq

/-- C7 counterexample: with no terminal overwrite involved, the hook's
`finished` event writes percent 87 (status `processing`), and the pipeline's
immediately following locate-file update writes percent 86 (status still
`processing`): the stored percent decreases from 87 to 86 while the status
stays inside {downloading, processing, embedding}. -/
theorem c7_percent_decrease_counterexample :
    ((dictGet (progress_hook ⟨"finished", none, 0, 0, 0, 0⟩ "t" 20
        [("t", sampleStallInfo)]) "t").map TaskInfo.percent = some 87) ∧
    ((dictGet (progress_hook ⟨"finished", none, 0, 0, 0, 0⟩ "t" 20
        [("t", sampleStallInfo)]) "t").map TaskInfo.status = some "processing") ∧
    ((dictGet (locating_update 21 "t" (progress_hook ⟨"finished", none, 0, 0, 0, 0⟩
        "t" 20 [("t", sampleStallInfo)])) "t").map TaskInfo.percent = some 86) ∧
    ((dictGet (locating_update 21 "t" (progress_hook ⟨"finished", none, 0, 0, 0, 0⟩
        "t" 20 [("t", sampleStallInfo)])) "t").map TaskInfo.status
      = some "processing") ∧
    (86 : ℚ) < 87 := by
  have hfin := progress_hook_finished "t" [("t", sampleStallInfo)] sampleStallInfo
    none 0 0 0 0 20 rfl
  rw [hfin]
  refine ⟨?_, ?_, ?_, ?_, by norm_num⟩
  · rw [dictGet_dictSet_self]
    rfl
  · rw [dictGet_dictSet_self]
    rfl
  · simp [locating_update, dictSet, dictUpdate, dictGet]
  · simp [locating_update, dictSet, dictUpdate, dictGet]

/- ===================== C3: stall monitor scan ===================== -/

theorem stallHandleTask_skip (now : ℚ) (st : SystemState) (k : String)
    (v : TaskInfo)
    (h : terminalStatus v.status = true ∨ v.lastUpdate = 0
      ∨ ¬ ((stallThreshold v.status : ℚ) < now - v.lastUpdate)) :
    stallHandleTask now st k v = st := by
  simp only [stallHandleTask]
  rcases h with h | h | h
  · rw [if_pos h]
  · by_cases hterm : terminalStatus v.status = true
    · rw [if_pos hterm]
    · rw [if_neg hterm, if_pos h]
  · by_cases hterm : terminalStatus v.status = true
    · rw [if_pos hterm]
    · by_cases hlu : v.lastUpdate = 0
      · rw [if_neg hterm, if_pos hlu]
      · rw [if_neg hterm, if_neg hlu, if_neg h]

theorem stallHandleTask_stalled_some (now : ℚ) (st : SystemState) (k : String)
    (v : TaskInfo) (pid : Nat) (h1 : terminalStatus v.status = false)
    (h2 : v.lastUpdate ≠ 0)
    (h3 : (stallThreshold v.status : ℚ) < now - v.lastUpdate)
    (hproc : dictGet st.procs k = some pid) :
    stallHandleTask now st k v
      = { progress := dictSet st.progress k
            (stall_record now (now - v.lastUpdate) v.percent)
          procs := dictDelete st.procs k
          downloadFiles := deleteTaskFiles k st.downloadFiles
          tempFiles := deleteTaskFiles k st.tempFiles
          kills := st.kills ++ [KillEvent.tree pid] } := by
  simp only [stallHandleTask, hproc]
  rw [if_neg (by simp [h1]), if_neg h2, if_pos h3]

theorem stallHandleTask_stalled_none (now : ℚ) (st : SystemState) (k : String)
    (v : TaskInfo) (h1 : terminalStatus v.status = false) (h2 : v.lastUpdate ≠ 0)
    (h3 : (stallThreshold v.status : ℚ) < now - v.lastUpdate)
    (hproc : dictGet st.procs k = none) :
    stallHandleTask now st k v
      = { progress := dictSet st.progress k
            (stall_record now (now - v.lastUpdate) v.percent)
          procs := st.procs
          downloadFiles := deleteTaskFiles k st.downloadFiles
          tempFiles := deleteTaskFiles k st.tempFiles
          kills := st.kills } := by
  simp only [stallHandleTask, hproc]
  rw [if_neg (by simp [h1]), if_neg h2, if_pos h3]

theorem stallHandleTask_mono (now : ℚ) (st : SystemState) (k : String)
    (v : TaskInfo) :
    (∀ x ∈ st.kills, x ∈ (stallHandleTask now st k v).kills) ∧
    (∀ f ∈ (stallHandleTask now st k v).downloadFiles, f ∈ st.downloadFiles) ∧
    (∀ f ∈ (stallHandleTask now st k v).tempFiles, f ∈ st.tempFiles) ∧
    (∀ p ∈ (stallHandleTask now st k v).procs, p ∈ st.procs) := by
  by_cases hterm : terminalStatus v.status = true
  · rw [stallHandleTask_skip now st k v (Or.inl hterm)]
    exact ⟨fun x hx => hx, fun f hf => hf, fun f hf => hf, fun p hp => hp⟩
  · have h1 : terminalStatus v.status = false := Bool.eq_false_iff.2 hterm
    by_cases hlu : v.lastUpdate = 0
    · rw [stallHandleTask_skip now st k v (Or.inr (Or.inl hlu))]
      exact ⟨fun x hx => hx, fun f hf => hf, fun f hf => hf, fun p hp => hp⟩
    · by_cases hst : (stallThreshold v.status : ℚ) < now - v.lastUpdate
      · cases hproc : dictGet st.procs k with
        | some pid =>
          rw [stallHandleTask_stalled_some now st k v pid h1 hlu hst hproc]
          refine ⟨?_, ?_, ?_, ?_⟩
          · intro x hx
            exact List.mem_append_left _ hx
          · intro f hf
            exact (mem_deleteTaskFiles hf).1
          · intro f hf
            exact (mem_deleteTaskFiles hf).1
          · intro p hp
            exact mem_dictDelete hp
        | none =>
          rw [stallHandleTask_stalled_none now st k v h1 hlu hst hproc]
          refine ⟨fun x hx => hx, ?_, ?_, fun p hp => hp⟩
          · intro f hf
            exact (mem_deleteTaskFiles hf).1
          · intro f hf
            exact (mem_deleteTaskFiles hf).1
      · rw [stallHandleTask_skip now st k v (Or.inr (Or.inr hst))]
        exact ⟨fun x hx => hx, fun f hf => hf, fun f hf => hf, fun p hp => hp⟩

theorem stallHandleTask_get_ne (now : ℚ) (st : SystemState) (k : String)
    (v : TaskInfo) {tid : String} (hne : k ≠ tid) :
    dictGet (stallHandleTask now st k v).progress tid = dictGet st.progress tid ∧
    dictGet (stallHandleTask now st k v).procs tid = dictGet st.procs tid := by
  by_cases hterm : terminalStatus v.status = true
  · rw [stallHandleTask_skip now st k v (Or.inl hterm)]
    exact ⟨rfl, rfl⟩
  · have h1 : terminalStatus v.status = false := Bool.eq_false_iff.2 hterm
    by_cases hlu : v.lastUpdate = 0
    · rw [stallHandleTask_skip now st k v (Or.inr (Or.inl hlu))]
      exact ⟨rfl, rfl⟩
    · by_cases hst : (stallThreshold v.status : ℚ) < now - v.lastUpdate
      · cases hproc : dictGet st.procs k with
        | some pid =>
          rw [stallHandleTask_stalled_some now st k v pid h1 hlu hst hproc]
          exact ⟨dictGet_dictSet_ne _ _ (Ne.symm hne),
            dictGet_dictDelete_ne _ (Ne.symm hne)⟩
        | none =>
          rw [stallHandleTask_stalled_none now st k v h1 hlu hst hproc]
          exact ⟨dictGet_dictSet_ne _ _ (Ne.symm hne), rfl⟩
      · rw [stallHandleTask_skip now st k v (Or.inr (Or.inr hst))]
        exact ⟨rfl, rfl⟩

theorem stallScan_foldl_get_ne (now : ℚ) (tid : String) :
    ∀ (l : List (String × TaskInfo)) (st : SystemState),
      (∀ p ∈ l, p.1 ≠ tid) →
      dictGet ((l.foldl (fun acc p => stallHandleTask now acc p.1 p.2) st)).progress
          tid
        = dictGet st.progress tid ∧
      dictGet ((l.foldl (fun acc p => stallHandleTask now acc p.1 p.2) st)).procs
          tid
        = dictGet st.procs tid := by
  intro l
  induction l with
  | nil =>
    intro st _
    exact ⟨rfl, rfl⟩
  | cons p rest ih =>
    intro st hl
    rw [List.foldl_cons]
    have hp : p.1 ≠ tid := hl p (List.mem_cons_self _ _)
    have hrest : ∀ q ∈ rest, q.1 ≠ tid := fun q hq => hl q (List.mem_cons_of_mem _ hq)
    have h1 := stallHandleTask_get_ne now st p.1 p.2 hp
    have h2 := ih (stallHandleTask now st p.1 p.2) hrest
    exact ⟨h2.1.trans h1.1, h2.2.trans h1.2⟩

theorem stallScan_foldl_mono (now : ℚ) :
    ∀ (l : List (String × TaskInfo)) (st : SystemState),
      (∀ x ∈ st.kills,
        x ∈ ((l.foldl (fun acc p => stallHandleTask now acc p.1 p.2) st)).kills) ∧
      (∀ f ∈ ((l.foldl (fun acc p => stallHandleTask now acc p.1 p.2) st)).downloadFiles,
        f ∈ st.downloadFiles) ∧
      (∀ f ∈ ((l.foldl (fun acc p => stallHandleTask now acc p.1 p.2) st)).tempFiles,
        f ∈ st.tempFiles) ∧
      (∀ q ∈ ((l.foldl (fun acc p => stallHandleTask now acc p.1 p.2) st)).procs,
        q ∈ st.procs) := by
  intro l
  induction l with
  | nil =>
    intro st
    exact ⟨fun x hx => hx, fun f hf => hf, fun f hf => hf, fun q hq => hq⟩
  | cons p rest ih =>
    intro st
    rw [List.foldl_cons]
    have hstep := stallHandleTask_mono now st p.1 p.2
    have hrest := ih (stallHandleTask now st p.1 p.2)
    refine ⟨?_, ?_, ?_, ?_⟩
    · intro x hx
      exact hrest.1 x (hstep.1 x hx)
    · intro f hf
      exact hstep.2.1 f (hrest.2.1 f hf)
    · intro f hf
      exact hstep.2.2.1 f (hrest.2.2.1 f hf)
    · intro q hq
      exact hstep.2.2.2 q (hrest.2.2.2 q hq)

theorem string_append_assoc (a b c : String) : a ++ b ++ c = a ++ (b ++ c) := by
  apply congrArg String.mk ?_ |>.trans rfl |>.symm |>.symm
  show (a ++ b ++ c).data = (a ++ (b ++ c)).data
  simp [String.data_append, List.append_assoc]

theorem stall_record_message_split (now stallTime pct : ℚ) :
    ∃ pre post : String,
      (stall_record now stallTime pct).message = pre ++ ("stalled" ++ post) := by
  refine ⟨"Process ", " after " ++ (toString (Int.floor stallTime)
    ++ "s. Please try again."), ?_⟩
  have hlit : ("Process stalled after " : String)
      = "Process " ++ ("stalled" ++ " after ") := by decide
  show "Process stalled after "
      ++ (toString (Int.floor stallTime) ++ "s. Please try again.") = _
  rw [hlit, string_append_assoc, string_append_assoc]

/-- C3: one scan of the stall monitor.  A registry task in a non-terminal state
with a recorded `last_update` whose idle time exceeds its stage threshold
(180s for `downloading` and other active states, 600s for
`processing`/`embedding`) is overwritten with the `error` record whose message
contains "stalled", its registered process is tree-killed and deregistered, and
every file of either working folder whose name the task id prefixes is
deleted; a task in a terminal state keeps its registry entry untouched. -/
theorem c3_stall_scan (now : ℚ) (st : SystemState) (tid : String)
    (info : TaskInfo) (hmem : (tid, info) ∈ st.progress)
    (hnodup : (st.progress.map Prod.fst).Nodup) :
    (terminalStatus info.status = true →
      dictGet (check_stalled_downloads now st).progress tid = some info) ∧
    (terminalStatus info.status = false → info.lastUpdate ≠ 0 →
      (stallThreshold info.status : ℚ) < now - info.lastUpdate →
      dictGet (check_stalled_downloads now st).progress tid
        = some (stall_record now (now - info.lastUpdate) info.percent) ∧
      (∃ pre post : String,
        (stall_record now (now - info.lastUpdate) info.percent).message
          = pre ++ ("stalled" ++ post)) ∧
      (∀ pid, dictGet st.procs tid = some pid →
        KillEvent.tree pid ∈ (check_stalled_downloads now st).kills) ∧
      (∀ q : Nat, (tid, q) ∉ (check_stalled_downloads now st).procs) ∧
      (∀ f ∈ (check_stalled_downloads now st).downloadFiles,
        String.isPrefixOf tid f = false) ∧
      (∀ f ∈ (check_stalled_downloads now st).tempFiles,
        String.isPrefixOf tid f = false)) := by
  obtain ⟨l₁, l₂, hsplit⟩ := List.append_of_mem hmem
  have hkeys : (l₁.map Prod.fst ++ tid :: l₂.map Prod.fst).Nodup := by
    rw [hsplit] at hnodup
    simpa using hnodup
  have h1 : ∀ p ∈ l₁, p.1 ≠ tid := by
    intro p hp he
    have hin : tid ∈ l₁.map Prod.fst := he ▸ List.mem_map_of_mem Prod.fst hp
    have hdisj := (List.nodup_append.1 hkeys).2.2
    exact hdisj hin (List.mem_cons_self _ _)
  have h2 : ∀ p ∈ l₂, p.1 ≠ tid := by
    intro p hp he
    have hin : tid ∈ l₂.map Prod.fst := he ▸ List.mem_map_of_mem Prod.fst hp
    have hnd2 := (List.nodup_append.1 hkeys).2.1
    exact (List.nodup_cons.1 hnd2).1 hin
  have hget : dictGet st.progress tid = some info :=
    dictGet_of_mem_nodup hmem hnodup
  have hscan : check_stalled_downloads now st
      = l₂.foldl (fun acc p => stallHandleTask now acc p.1 p.2)
          (stallHandleTask now
            (l₁.foldl (fun acc p => stallHandleTask now acc p.1 p.2) st) tid
            info) := by
    rw [check_stalled_downloads]
    conv_lhs => rw [hsplit]
    rw [List.foldl_append, List.foldl_cons]
  have hApre := stallScan_foldl_get_ne now tid l₁ st h1
  constructor
  · intro hterm
    rw [hscan]
    rw [stallHandleTask_skip now
      (l₁.foldl (fun acc p => stallHandleTask now acc p.1 p.2) st) tid info
      (Or.inl hterm)]
    have hpost := stallScan_foldl_get_ne now tid l₂
      (l₁.foldl (fun acc p => stallHandleTask now acc p.1 p.2) st) h2
    rw [hpost.1, hApre.1, hget]
  · intro hterm hlu hst
    rw [hscan]
    have hpost := stallScan_foldl_get_ne now tid l₂
      (stallHandleTask now
        (l₁.foldl (fun acc p => stallHandleTask now acc p.1 p.2) st) tid info) h2
    have hmono := stallScan_foldl_mono now l₂
      (stallHandleTask now
        (l₁.foldl (fun acc p => stallHandleTask now acc p.1 p.2) st) tid info)
    refine ⟨?_, stall_record_message_split now (now - info.lastUpdate) info.percent,
      ?_, ?_, ?_, ?_⟩
    · rw [hpost.1]
      cases hproc : dictGet
          (l₁.foldl (fun acc p => stallHandleTask now acc p.1 p.2) st).procs tid with
      | some pid =>
        rw [stallHandleTask_stalled_some now _ tid info pid hterm hlu hst hproc]
        exact dictGet_dictSet_self _ _ _
      | none =>
        rw [stallHandleTask_stalled_none now _ tid info hterm hlu hst hproc]
        exact dictGet_dictSet_self _ _ _
    · intro pid hpid
      have hpidA : dictGet
          (l₁.foldl (fun acc p => stallHandleTask now acc p.1 p.2) st).procs tid
          = some pid := by
        rw [hApre.2]
        exact hpid
      have hkillB : KillEvent.tree pid
          ∈ (stallHandleTask now
              (l₁.foldl (fun acc p => stallHandleTask now acc p.1 p.2) st) tid
              info).kills := by
        rw [stallHandleTask_stalled_some now _ tid info pid hterm hlu hst hpidA]
        exact List.mem_append_right _ (List.mem_singleton.2 rfl)
      exact hmono.1 _ hkillB
    · intro q hq
      have hqB := hmono.2.2.2 _ hq
      cases hproc : dictGet
          (l₁.foldl (fun acc p => stallHandleTask now acc p.1 p.2) st).procs tid with
      | some pid =>
        rw [stallHandleTask_stalled_some now _ tid info pid hterm hlu hst hproc] at hqB
        exact not_mem_dictDelete _ _ _ hqB
      | none =>
        rw [stallHandleTask_stalled_none now _ tid info hterm hlu hst hproc] at hqB
        exact not_mem_of_dictGet_none hproc q hqB
    · intro f hf
      have hfB := hmono.2.1 f hf
      cases hproc : dictGet
          (l₁.foldl (fun acc p => stallHandleTask now acc p.1 p.2) st).procs tid with
      | some pid =>
        rw [stallHandleTask_stalled_some now _ tid info pid hterm hlu hst hproc] at hfB
        exact (mem_deleteTaskFiles hfB).2
      | none =>
        rw [stallHandleTask_stalled_none now _ tid info hterm hlu hst hproc] at hfB
        exact (mem_deleteTaskFiles hfB).2
    · intro f hf
      have hfB := hmono.2.2.1 f hf
      cases hproc : dictGet
          (l₁.foldl (fun acc p => stallHandleTask now acc p.1 p.2) st).procs tid with
      | some pid =>
        rw [stallHandleTask_stalled_some now _ tid info pid hterm hlu hst hproc] at hfB
        exact (mem_deleteTaskFiles hfB).2
      | none =>
        rw [stallHandleTask_stalled_none now _ tid info hterm hlu hst hproc] at hfB
        exact (mem_deleteTaskFiles hfB).2

theorem c3_stall_scan_witness :
    dictGet (check_stalled_downloads 200 sampleStallState).progress "t"
      = some (stall_record 200 (200 - sampleStallInfo.lastUpdate)
          sampleStallInfo.percent) ∧
    (∀ q : Nat, ("t", q) ∉ (check_stalled_downloads 200 sampleStallState).procs) := by
  have h := c3_stall_scan 200 sampleStallState "t" sampleStallInfo
    (by simp [sampleStallState]) (by simp [sampleStallState])
  have h2 := h.2 (by decide) (by norm_num [sampleStallInfo])
    (by norm_num [sampleStallInfo, stallThreshold, STALL_TIMEOUT])
  exact ⟨h2.1, h2.2.2.2.1⟩

end VidConv
